import Mathlib

/-!
Verification of the mode-aware runtime of the OM1 repository
(`src/runtime/multi_mode/hook.py`, `src/runtime/multi_mode/manager.py`,
`src/runtime/multi_mode/config.py`).

The Python code is shallowly embedded:

* wall-clock instants and durations (Python `time.time()` floats) are
  modelled as exact rationals `ℚ`; the claims under scrutiny only compare
  and subtract times, so exact arithmetic is a faithful abstraction;
* Python dicts keyed by strings are association lists read through
  `List.lookup` (a fresh binding is consed to the front, exactly like a
  dict write as far as `lookup` is concerned);
* a hook handler's run to completion is an environment choice: each hook is
  paired with a `HookBeh` describing what `handler.execute(context)` would
  do (return `True`, return `False`, or raise) and how long it would take;
  `asyncio.wait_for` turns a run that lasts longer than the timeout into
  `asyncio.TimeoutError`;
* the mode manager's hook batches, transition callbacks and state
  persistence are recorded as an explicit event trace (`HookEvent`);
  per the source, their boolean results are only logged and never alter
  control flow, and every exception they can raise is caught at its origin.
-/

namespace OM1

/-! ## Lifecycle hook engine (`src/runtime/multi_mode/hook.py`) -/

/-- The five hook categories of `LifecycleHookType` in `hook.py`. -/
inductive LifecycleHookType where
  | on_entry
  | on_exit
  | on_startup
  | on_shutdown
  | on_timeout
deriving DecidableEq, Repr

/-- The `LifecycleHook` dataclass of `hook.py`; `handler_config` is omitted
because handler behaviour is supplied by the environment (`HookBeh`).
Defaults mirror the dataclass defaults. -/
structure LifecycleHook where
  hook_type : LifecycleHookType
  handler_type : String
  async_execution : Bool := true
  timeout_seconds : Option ℚ := some 5
  on_failure : String := "ignore"
  priority : Int := 0
deriving DecidableEq, Repr

/-- What a handler's `execute(context)` would do if run to completion. -/
inductive HookOutcome where
  | success
  | failure
  | raises
deriving DecidableEq, Repr

/-- Environment-chosen behaviour of one handler execution: its completed
outcome and the wall-clock duration it would take. -/
structure HookBeh where
  outcome : HookOutcome
  duration : ℚ
deriving DecidableEq, Repr

/-- Lower-case a string character-wise, models Python `str.lower()`. -/
def strLower (s : String) : String :=
  String.mk (s.data.map Char.toLower)

/-- `create_hook_handler` in `hook.py`: a handler exists exactly for the
four known kinds (after lower-casing); an unknown kind yields `None`.
We record only which class would be constructed. -/
def create_hook_handler (handler_type : String) : Option String :=
  let ht := strLower handler_type
  if ht = "message" then some "message"
  else if ht = "command" then some "command"
  else if ht = "function" then some "function"
  else if ht = "action" then some "action"
  else none

/-- Whether `create_hook_handler` produces a handler for this hook. -/
def hookCreated (h : LifecycleHook) : Bool :=
  (create_hook_handler h.handler_type).isSome

/-- Whether `asyncio.wait_for` cuts this hook's execution short: the code
wraps the execution in `wait_for` only when `hook.async_execution` holds and
`hook.timeout_seconds` is truthy (neither `None` nor `0`). -/
def hookTimesOut (h : LifecycleHook) (b : HookBeh) : Bool :=
  h.async_execution &&
    (match h.timeout_seconds with
     | some t => decide (t ≠ 0) && decide (t < b.duration)
     | none => false)

/-- Result of the `try` body for one hook inside `execute_lifecycle_hooks`. -/
inductive HookExecResult where
  | notCreated
  | timedOut
  | raised
  | completed (b : Bool)
deriving DecidableEq, Repr

/-- One iteration of the hook loop: build the handler (`notCreated` when the
kind is unknown), race against the timeout when applicable, otherwise
deliver the handler's completed outcome. -/
def hookExecResult (h : LifecycleHook) (b : HookBeh) : HookExecResult :=
  if !hookCreated h then .notCreated
  else if hookTimesOut h b then .timedOut
  else
    match b.outcome with
    | .raises => .raised
    | .success => .completed true
    | .failure => .completed false

/-- A hook attempt counts as failed unless its handler completed with a
truthy result (the code sets `all_successful = False` in every other case). -/
def hookFailed : HookExecResult → Bool
  | .completed true => false
  | _ => true

/-- Shorthand: whether a (hook, behaviour) pair fails. -/
def hookFailedB (hb : LifecycleHook × HookBeh) : Bool :=
  hookFailed (hookExecResult hb.1 hb.2)

/-- Whether this hook makes the loop return early: in the source the
`abort` check is reached for a falsy `success`, a `TimeoutError` and a
generic exception, but not when handler creation failed. -/
def abortTriggers (hb : LifecycleHook × HookBeh) : Bool :=
  hookFailedB hb && hb.1.on_failure = "abort"
    && decide (hookExecResult hb.1 hb.2 ≠ .notCreated)

/-- Result of a hook batch: the aggregate boolean, the hooks the `for` loop
iterated over, and the hooks whose handler's `execute` was invoked. -/
structure HookBatchResult where
  ok : Bool
  visited : List LifecycleHook
  invoked : List LifecycleHook
deriving DecidableEq, Repr

/-- The `for hook in relevant_hooks` loop of `execute_lifecycle_hooks`:
sequential, aborting early exactly when a failure other than
handler-creation hits a hook with `on_failure == "abort"`. -/
def execHooksLoop : List (LifecycleHook × HookBeh) → HookBatchResult
  | [] => ⟨true, [], []⟩
  | hb :: rest =>
    let r := hookExecResult hb.1 hb.2
    let inv : List LifecycleHook := if r = .notCreated then [] else [hb.1]
    if hookFailed r then
      if hb.1.on_failure = "abort" && decide (r ≠ .notCreated) then
        ⟨false, [hb.1], inv⟩
      else
        let p := execHooksLoop rest
        ⟨false, hb.1 :: p.visited, inv ++ p.invoked⟩
    else
      let p := execHooksLoop rest
      ⟨p.ok, hb.1 :: p.visited, inv ++ p.invoked⟩

/-- Stable insertion of `x` in front of the first element whose key is not
greater: models the placement Python's stable sort with `reverse=True`
gives an element relative to the (already sorted) later elements. -/
def insertDesc (key : α → Int) (x : α) : List α → List α
  | [] => [x]
  | y :: ys => if key x < key y then y :: insertDesc key x ys else x :: y :: ys

/-- Stable descending sort by an integer key: models
`list.sort(key=..., reverse=True)`. -/
def sortDesc (key : α → Int) : List α → List α
  | [] => []
  | x :: xs => insertDesc key x (sortDesc key xs)

/-- The element the specification's tie-breaking rule selects: the first
element of the list whose key is greatest. -/
def firstMaxBy (key : α → Int) (l : List α) : Option α :=
  l.find? (fun x => l.all (fun y => decide (key y ≤ key x)))

/-- The batch `execute_lifecycle_hooks` actually iterates: hooks of the
requested type, stably sorted by descending priority. -/
def relevantSorted (hooks : List (LifecycleHook × HookBeh))
    (hook_type : LifecycleHookType) : List (LifecycleHook × HookBeh) :=
  sortDesc (fun hb => hb.1.priority)
    (hooks.filter (fun hb => hb.1.hook_type = hook_type))

/-- `execute_lifecycle_hooks` of `hook.py`: filter to the requested type,
sort by descending priority, return `True` on an empty batch, otherwise run
the loop. Each hook is paired with the behaviour its handler would have in
the given context. -/
def execute_lifecycle_hooks (hooks : List (LifecycleHook × HookBeh))
    (hook_type : LifecycleHookType) : HookBatchResult :=
  let relevant := relevantSorted hooks hook_type
  if relevant.isEmpty then ⟨true, [], []⟩
  else execHooksLoop relevant

/-! ## Mode / transition model (`src/runtime/multi_mode/config.py`) -/

/-- `TransitionType` enum of `config.py`. -/
inductive TransitionType where
  | input_triggered
  | time_based
  | context_aware
  | manual
deriving DecidableEq, Repr

/-- The `TransitionRule` dataclass (context conditions are carried nowhere
by the evaluated code paths and are omitted). Defaults mirror the source. -/
structure TransitionRule where
  from_mode : String
  to_mode : String
  transition_type : TransitionType
  trigger_keywords : List String := []
  priority : Int := 1
  cooldown_seconds : ℚ := 0
  timeout_seconds : Option ℚ := none
deriving DecidableEq, Repr

/-- The fields of the `ModeConfig` dataclass consulted by the mode
manager's transition evaluation. -/
structure ModeConfig where
  name : String
  timeout_seconds : Option ℚ := none
deriving DecidableEq, Repr

/-- The fields of `ModeSystemConfig` consulted by the mode manager.
`modes` is the dict `name -> ModeConfig`, as an association list. -/
structure ModeSystemConfig where
  default_mode : String
  allow_manual_switching : Bool := true
  mode_memory_enabled : Bool := true
  modes : List (String × ModeConfig) := []
  transition_rules : List TransitionRule := []
deriving DecidableEq, Repr

/-! ## Mode manager (`src/runtime/multi_mode/manager.py`) -/

/-- The `ModeState` dataclass (the free-form `user_context` dict is not
consulted by any claim and is omitted). -/
structure ModeState where
  current_mode : String
  previous_mode : Option String := none
  mode_start_time : ℚ := 0
  transition_history : List String := []
  last_transition_time : ℚ := 0
deriving DecidableEq, Repr

/-- The mutable attributes of the `ModeManager` class (callbacks and the
zenoh session are modelled through the event trace). -/
structure ModeManager where
  config : ModeSystemConfig
  state : ModeState
  transition_cooldowns : List (String × ℚ) := []
deriving DecidableEq, Repr

/-- Side effects the manager triggers while executing a transition; their
results are logged but never change the manager's control flow. -/
inductive HookEvent where
  | modeHooks (mode : String) (hook_type : LifecycleHookType)
  | globalHooks (hook_type : LifecycleHookType)
  | callbacks (from_mode to_mode : String)
  | saveState
deriving DecidableEq, Repr

/-- The cooldown dictionary key `f"{from_mode}->{to_mode}"`. -/
def transitionKey (from_mode to_mode : String) : String :=
  from_mode ++ "->" ++ to_mode

/-- Python `history[-n:]`. -/
def lastN (n : Nat) (l : List α) : List α :=
  l.drop (l.length - n)

/-- The trimming step applied after extending the transition history:
`if len(history) > 50: history = history[-25:]`. -/
def trimHistory (l : List String) : List String :=
  if l.length > 50 then lastN 25 l else l

/-- `ModeManager._can_transition`: refuse while the cooldown for the rule's
exact `from->to` key has not elapsed, then refuse unknown targets. -/
def can_transition (m : ModeManager) (now : ℚ) (rule : TransitionRule) : Bool :=
  match m.transition_cooldowns.lookup (transitionKey rule.from_mode rule.to_mode) with
  | some ts =>
    if now - ts < rule.cooldown_seconds then false
    else (m.config.modes.lookup rule.to_mode).isSome
  | none => (m.config.modes.lookup rule.to_mode).isSome

/-- Result of `ModeManager._execute_transition` / `request_transition`:
the returned boolean, the post-state, and the side-effect trace. -/
structure TransitionResult where
  ok : Bool
  mgr : ModeManager
  events : List HookEvent
deriving DecidableEq, Repr

/-- `ModeManager._execute_transition`. The cooldown timestamp is recorded
first; looking up `config.modes[target_mode]` then raises `KeyError` for an
unknown target, which the enclosing `except` turns into `False` — with the
cooldown already written. On the success path the state is updated, the
history appended and trimmed, and the hook/callback/persist side effects
fire in source order. -/
def execute_transition (m : ModeManager) (now : ℚ)
    (target_mode reason : String) : TransitionResult :=
  let from_mode := m.state.current_mode
  let cooldowns := (transitionKey from_mode target_mode, now) :: m.transition_cooldowns
  if (m.config.modes.lookup target_mode).isSome then
    let exitEvents : List HookEvent :=
      if (m.config.modes.lookup from_mode).isSome then
        [.modeHooks from_mode .on_exit] else []
    { ok := true
      mgr :=
        { m with
          transition_cooldowns := cooldowns
          state :=
            { m.state with
              previous_mode := some from_mode
              current_mode := target_mode
              mode_start_time := now
              last_transition_time := now
              transition_history :=
                trimHistory (m.state.transition_history
                  ++ [transitionKey from_mode target_mode ++ ":" ++ reason]) } }
      events := exitEvents ++ [.globalHooks .on_exit,
        .modeHooks target_mode .on_entry, .globalHooks .on_entry,
        .callbacks from_mode target_mode, .saveState] }
  else
    { ok := false
      mgr := { m with transition_cooldowns := cooldowns }
      events := [] }

/-- `ModeManager.request_transition`: manual-disabled check, unknown-target
check, trivial no-op on the current mode, otherwise unconditional
execution. -/
def request_transition (m : ModeManager) (now : ℚ)
    (target_mode reason : String) : TransitionResult :=
  if !m.config.allow_manual_switching && reason = "manual" then ⟨false, m, []⟩
  else if (m.config.modes.lookup target_mode).isNone then ⟨false, m, []⟩
  else if target_mode = m.state.current_mode then ⟨true, m, []⟩
  else execute_transition m now target_mode reason

/-- Python `needle in haystack` on lists of characters: `charsStartWith n h`
holds when `n` is a leading segment of `h`. -/
def charsStartWith : List Char → List Char → Bool
  | [], _ => true
  | _ :: _, [] => false
  | c :: cs, d :: ds => decide (c = d) && charsStartWith cs ds

/-- Python `needle in haystack` (substring containment). -/
def charsContain (hay needle : List Char) : Bool :=
  match hay with
  | [] => needle.isEmpty
  | _ :: rest => charsStartWith needle hay || charsContain rest needle

/-- Substring containment on strings. -/
def strContains (hay needle : String) : Bool :=
  charsContain hay.data needle.data

/-- The per-rule test of `check_input_triggered_transitions`: right
source mode (current or the `"*"` wildcard), input-triggered kind, some
trigger keyword occurring case-insensitively in the input, and the
rule surviving `_can_transition`. -/
def inputRuleMatches (m : ModeManager) (now : ℚ) (input_lower : String)
    (rule : TransitionRule) : Bool :=
  (rule.from_mode = m.state.current_mode || rule.from_mode = "*")
    && rule.transition_type = TransitionType.input_triggered
    && rule.trigger_keywords.any (fun kw => strContains input_lower (strLower kw))
    && can_transition m now rule

/-- `ModeManager.check_input_triggered_transitions`: empty input yields
`None`; otherwise the matching rules are collected in configuration order,
stably sorted by descending priority, and the head's target returned. -/
def check_input_triggered_transitions (m : ModeManager) (now : ℚ)
    (input_text : String) : Option String :=
  if input_text = "" then none
  else
    let input_lower := strLower input_text
    let matching := m.config.transition_rules.filter (inputRuleMatches m now input_lower)
    match sortDesc (fun r => r.priority) matching with
    | [] => none
    | best :: _ => some best.to_mode

/-- `ModeManager.check_time_based_transitions`: when the active mode's
timeout is truthy and exceeded, run the mode's `on_timeout` hooks and pick
the first time-based rule from the current mode (or wildcard) that survives
`_can_transition`. In every reachable state the current mode's config
exists; a missing entry is mapped to no transition. -/
def check_time_based_transitions (m : ModeManager) (now : ℚ) :
    Option String × List HookEvent :=
  match m.config.modes.lookup m.state.current_mode with
  | none => (none, [])
  | some mc =>
    match mc.timeout_seconds with
    | none => (none, [])
    | some t =>
      if t ≠ 0 ∧ t ≤ now - m.state.mode_start_time then
        ((m.config.transition_rules.find? (fun rule =>
            (rule.from_mode = m.state.current_mode || rule.from_mode = "*")
              && rule.transition_type = TransitionType.time_based
              && can_transition m now rule)).map (fun r => r.to_mode),
         [.modeHooks m.state.current_mode .on_timeout])
      else (none, [])

/-- Result of one `ModeManager.process_tick`. -/
structure TickResult where
  transitioned : Option String
  mgr : ModeManager
  events : List HookEvent
deriving DecidableEq, Repr

/-- The input-triggered half of `process_tick` (reached when no time-based
transition succeeded); `if input_text:` and `if input_target:` are Python
truthiness tests on strings. -/
def tickInput (m : ModeManager) (now : ℚ) (input_text : Option String)
    (ev : List HookEvent) : TickResult :=
  match input_text with
  | none => ⟨none, m, ev⟩
  | some s =>
    if s = "" then ⟨none, m, ev⟩
    else
      match check_input_triggered_transitions m now s with
      | none => ⟨none, m, ev⟩
      | some target =>
        if target = "" then ⟨none, m, ev⟩
        else
          let r := execute_transition m now target "input_triggered"
          if r.ok then ⟨some target, r.mgr, ev ++ r.events⟩
          else ⟨none, r.mgr, ev ++ r.events⟩

/-- `ModeManager.process_tick`: the time-based check runs first; if it
names a (truthy) target, the transition is attempted, and only a successful
attempt ends the tick — otherwise the input-triggered check still runs on
the post-attempt state. -/
def process_tick (m : ModeManager) (now : ℚ) (input_text : Option String) :
    TickResult :=
  let tb := check_time_based_transitions m now
  match tb.1 with
  | none => tickInput m now input_text tb.2
  | some target =>
    if target = "" then tickInput m now input_text tb.2
    else
      let r := execute_transition m now target "timeout"
      if r.ok then ⟨some target, r.mgr, tb.2 ++ r.events⟩
      else tickInput r.mgr now input_text (tb.2 ++ r.events)

/-! ## State persistence (`_save_mode_state` / `_load_mode_state`) -/

/-- The JSON snapshot written by `_save_mode_state`; `last_active_mode` is
optional because `_load_mode_state` reads it with `.get`. -/
structure ModeSnapshot where
  last_active_mode : Option String := none
  previous_mode : Option String := none
  timestamp : ℚ := 0
  transition_history : List String := []
deriving DecidableEq, Repr

/-- `ModeManager._save_mode_state`: a no-op unless mode memory is enabled;
otherwise the snapshot value handed to the atomic write-temp-then-rename.
The file-system step itself is outside the embedding. -/
def save_mode_state (m : ModeManager) (now : ℚ) : Option ModeSnapshot :=
  if m.config.mode_memory_enabled then
    some { last_active_mode := some m.state.current_mode
           previous_mode := m.state.previous_mode
           timestamp := now
           transition_history := lastN 10 m.state.transition_history }
  else none

/-- `ModeManager._load_mode_state`: `file = none` stands for a missing or
unparsable state file (every exception is caught and the state left as is).
The saved mode is restored only when truthy (non-empty), present in the
configured modes and different from the default mode; the saved history,
when non-empty, is appended and trimmed. -/
def load_mode_state (config : ModeSystemConfig) (st : ModeState)
    (file : Option ModeSnapshot) : ModeState :=
  match file with
  | none => st
  | some snap =>
    match snap.last_active_mode with
    | none => st
    | some lam =>
      if lam ≠ "" ∧ (config.modes.lookup lam).isSome ∧ lam ≠ config.default_mode then
        { st with
          current_mode := lam
          previous_mode := snap.previous_mode
          transition_history :=
            if snap.transition_history.isEmpty then st.transition_history
            else trimHistory (st.transition_history ++ snap.transition_history) }
      else st

/-- `ModeManager.__init__` (zenoh wiring aside): `none` models the
`ValueError` raised when the default mode is unknown; otherwise the state
starts at the default mode and, when mode memory is enabled, is passed
through `_load_mode_state`. -/
def initManager (config : ModeSystemConfig) (now : ℚ)
    (file : Option ModeSnapshot) : Option ModeManager :=
  if (config.modes.lookup config.default_mode).isNone then none
  else
    let st0 : ModeState := { current_mode := config.default_mode, mode_start_time := now }
    let st := if config.mode_memory_enabled then load_mode_state config st0 file else st0
    some { config := config, state := st, transition_cooldowns := [] }

/-- The manager states reachable from a successful `__init__` through any
interleaving of external transition requests and tick evaluations. -/
inductive Reachable (config : ModeSystemConfig) : ModeManager → Prop
  | init (now : ℚ) (file : Option ModeSnapshot) (m : ModeManager)
      (h : initManager config now file = some m) : Reachable config m
  | request (m : ModeManager) (now : ℚ) (target_mode reason : String)
      (h : Reachable config m) :
      Reachable config (request_transition m now target_mode reason).mgr
  | tick (m : ModeManager) (now : ℚ) (input_text : Option String)
      (h : Reachable config m) :
      Reachable config (process_tick m now input_text).mgr

/-- Whether a string begins with the wildcard character `'*'`. -/
def startsWithStar (s : String) : Bool :=
  decide (s.data.head? = some '*')

/-- The invariant maintained by every reachable manager state: the manager
still carries its construction config, the current mode is configured, and
every cooldown key was recorded as `f"{from}->{to}"` with the then-current
(hence configured) mode as source. -/
def managerInv (config : ModeSystemConfig) (m : ModeManager) : Prop :=
  m.config = config
  ∧ (config.modes.lookup m.state.current_mode).isSome = true
  ∧ ∀ kv ∈ m.transition_cooldowns,
      ∃ f t, kv.1 = transitionKey f t ∧ (config.modes.lookup f).isSome = true

/-! ## Sample objects used by witnesses and counterexamples -/

/-- A hook with a known handler kind, abort policy, that fails. -/
def hookFailAbort : LifecycleHook :=
  { hook_type := .on_entry, handler_type := "message", on_failure := "abort", priority := 5 }

/-- A hook with a known handler kind, abort policy, that succeeds. -/
def hookOkAbort : LifecycleHook :=
  { hook_type := .on_entry, handler_type := "message", on_failure := "abort", priority := 1 }

/-- A hook whose handler kind is unknown, with abort policy. -/
def hookUnknownAbort : LifecycleHook :=
  { hook_type := .on_entry, handler_type := "bogus", on_failure := "abort", priority := 9 }

/-- A failing hook with ignore policy. -/
def hookFailIgnore : LifecycleHook :=
  { hook_type := .on_entry, handler_type := "message", on_failure := "ignore", priority := 5 }

/-- A succeeding hook with ignore policy. -/
def hookOkIgnore : LifecycleHook :=
  { hook_type := .on_entry, handler_type := "message", on_failure := "ignore", priority := 1 }

/-- A synchronous hook (no `wait_for` wrapper in the source). -/
def hookSyncSlow : LifecycleHook :=
  { hook_type := .on_entry, handler_type := "message", async_execution := false }

/-- An asynchronous hook with the default five-second timeout. -/
def hookAsyncSlow : LifecycleHook :=
  { hook_type := .on_entry, handler_type := "message", async_execution := true }

/-- Ignore-policy hooks with priorities 1, 5 and 3 for the ordering test. -/
def hookPrio1 : LifecycleHook :=
  { hook_type := .on_entry, handler_type := "message", priority := 1 }

/-- Priority-5 hook of the ordering test. -/
def hookPrio5 : LifecycleHook :=
  { hook_type := .on_entry, handler_type := "message", priority := 5 }

/-- Priority-3 hook of the ordering test. -/
def hookPrio3 : LifecycleHook :=
  { hook_type := .on_entry, handler_type := "message", priority := 3 }

/-- A behaviour that completes successfully and instantly. -/
def behOk : HookBeh := ⟨.success, 0⟩

/-- A behaviour that completes with `False` instantly. -/
def behFail : HookBeh := ⟨.failure, 0⟩

/-- A behaviour that would take ten seconds and then succeed. -/
def behSlow : HookBeh := ⟨.success, 10⟩

/-- Mode configuration shared by the sample system configs. -/
def sampleModeConfig : ModeConfig := { name := "x" }

/-- A wildcard input-triggered rule with priority 10. -/
def sampleWildRule : TransitionRule :=
  { from_mode := "*", to_mode := "b", transition_type := .input_triggered,
    trigger_keywords := ["help"], priority := 10 }

/-- A concrete-source input-triggered rule `a -> b` with a cooldown. -/
def sampleRuleAB : TransitionRule :=
  { from_mode := "a", to_mode := "b", transition_type := .input_triggered,
    trigger_keywords := ["help"], priority := 3, cooldown_seconds := 5 }

/-- A two-mode system configuration with default mode `"a"`. -/
def sampleCfg : ModeSystemConfig :=
  { default_mode := "a", modes := [("a", sampleModeConfig), ("b", sampleModeConfig)],
    transition_rules := [sampleWildRule, sampleRuleAB] }

/-- The manager `__init__` produces for `sampleCfg` with no state file. -/
def sampleMgr : ModeManager :=
  { config := sampleCfg, state := { current_mode := "a", mode_start_time := 0 } }

/-- The manager after executing the transition `a -> b` at time 0. -/
def sampleMgrAfter : ModeManager := (execute_transition sampleMgr 0 "b" "x").mgr

/-- The snapshot `_save_mode_state` writes for `sampleMgrAfter` at time 7. -/
def sampleSnapB : ModeSnapshot :=
  { last_active_mode := some "b", previous_mode := some "a", timestamp := 7,
    transition_history := ["a->b:x"] }

/-- A configuration that contains a mode whose name is the empty string. -/
def sampleCfgE : ModeSystemConfig :=
  { default_mode := "d", modes := [("", sampleModeConfig), ("d", sampleModeConfig)] }

/-- A manager for `sampleCfgE` sitting in the default mode. -/
def sampleMgrE0 : ModeManager :=
  { config := sampleCfgE, state := { current_mode := "d", mode_start_time := 0 } }

/-- The reachable manager after a programmatic request into the mode named
by the empty string. -/
def sampleMgrE : ModeManager := (request_transition sampleMgrE0 0 "" "prog").mgr

/-- The snapshot `_save_mode_state` writes for `sampleMgrE` at time 1. -/
def sampleSnapE : ModeSnapshot :=
  { last_active_mode := some "", previous_mode := some "d", timestamp := 1,
    transition_history := ["d->:prog"] }

/-! ## General lemmas about the stable descending sort -/

theorem mem_insertDesc {key : α → Int} {x a : α} {l : List α} :
    a ∈ insertDesc key x l ↔ a = x ∨ a ∈ l := by
  induction l with
  | nil => simp [insertDesc]
  | cons y ys ih =>
    by_cases h : key x < key y
    · simp only [insertDesc, if_pos h, List.mem_cons, ih]
      tauto
    · simp only [insertDesc, if_neg h, List.mem_cons]

theorem perm_insertDesc (key : α → Int) (x : α) (l : List α) :
    (insertDesc key x l).Perm (x :: l) := by
  induction l with
  | nil => simp [insertDesc]
  | cons y ys ih =>
    by_cases h : key x < key y
    · simp only [insertDesc, if_pos h]
      exact (ih.cons y).trans (List.Perm.swap x y ys)
    · simp [insertDesc, if_neg h]

theorem perm_sortDesc (key : α → Int) (l : List α) : (sortDesc key l).Perm l := by
  induction l with
  | nil => simp [sortDesc]
  | cons x xs ih => exact (perm_insertDesc key x (sortDesc key xs)).trans (ih.cons x)

theorem mem_sortDesc {key : α → Int} {a : α} {l : List α} :
    a ∈ sortDesc key l ↔ a ∈ l :=
  (perm_sortDesc key l).mem_iff

theorem sortDesc_eq_nil {key : α → Int} {l : List α} :
    sortDesc key l = [] ↔ l = [] := by
  constructor
  · intro h
    have := (perm_sortDesc key l).length_eq
    rw [h] at this
    exact List.length_eq_zero.mp this.symm
  · intro h
    subst h
    rfl

theorem sorted_insertDesc {key : α → Int} {x : α} {l : List α}
    (h : l.Pairwise (fun a b => key b ≤ key a)) :
    (insertDesc key x l).Pairwise (fun a b => key b ≤ key a) := by
  induction l with
  | nil => simp [insertDesc]
  | cons y ys ih =>
    rcases List.pairwise_cons.mp h with ⟨hy, hys⟩
    by_cases hlt : key x < key y
    · simp only [insertDesc, if_pos hlt]
      refine List.pairwise_cons.mpr ⟨?_, ih hys⟩
      intro z hz
      rcases mem_insertDesc.mp hz with rfl | hz'
      · exact le_of_lt hlt
      · exact hy z hz'
    · simp only [insertDesc, if_neg hlt]
      refine List.pairwise_cons.mpr ⟨?_, h⟩
      intro z hz
      rcases List.mem_cons.mp hz with rfl | hz'
      · exact le_of_not_lt hlt
      · exact le_trans (hy z hz') (le_of_not_lt hlt)

theorem sorted_sortDesc (key : α → Int) (l : List α) :
    (sortDesc key l).Pairwise (fun a b => key b ≤ key a) := by
  induction l with
  | nil => simp [sortDesc]
  | cons x xs ih => exact sorted_insertDesc ih

theorem filter_insertDesc {key : α → Int} (x : α) {l : List α} (n : Int)
    (h : l.Pairwise (fun a b => key b ≤ key a)) :
    (insertDesc key x l).filter (fun y => decide (key y = n)) =
      if key x = n then x :: l.filter (fun y => decide (key y = n))
      else l.filter (fun y => decide (key y = n)) := by
  induction l with
  | nil => by_cases hx : key x = n <;> simp [insertDesc, hx]
  | cons y ys ih =>
    rcases List.pairwise_cons.mp h with ⟨_, hys⟩
    by_cases hlt : key x < key y
    · simp only [insertDesc, if_pos hlt, List.filter_cons, ih hys]
      by_cases hx : key x = n
      · have hyn : ¬ (key y = n) := by omega
        simp [hx, hyn]
      · simp [hx]
    · simp only [insertDesc, if_neg hlt, List.filter_cons]
      by_cases hx : key x = n <;> simp [hx]

theorem filter_sortDesc (key : α → Int) (l : List α) (n : Int) :
    (sortDesc key l).filter (fun y => decide (key y = n))
      = l.filter (fun y => decide (key y = n)) := by
  induction l with
  | nil => simp [sortDesc]
  | cons x xs ih =>
    rw [sortDesc, filter_insertDesc x n (sorted_sortDesc key xs), List.filter_cons]
    by_cases hx : key x = n <;> simp [hx, ih]

theorem find?_congr {p q : α → Bool} {l : List α} (h : ∀ x ∈ l, p x = q x) :
    l.find? p = l.find? q := by
  induction l with
  | nil => rfl
  | cons x xs ih =>
    rw [List.find?_cons, List.find?_cons, h x (List.mem_cons_self x xs)]
    cases hq : q x
    · exact ih (fun z hz => h z (List.mem_cons_of_mem _ hz))
    · rfl

theorem find?_split {p : α → Bool} {l : List α} {a : α} (h : l.find? p = some a) :
    ∃ l₁ l₂, l = l₁ ++ a :: l₂ ∧ ∀ x ∈ l₁, p x = false := by
  induction l with
  | nil => simp [List.find?] at h
  | cons x xs ih =>
    rw [List.find?_cons] at h
    cases hp : p x
    · rw [hp] at h
      obtain ⟨l₁, l₂, rfl, hl₁⟩ := ih h
      refine ⟨x :: l₁, l₂, rfl, ?_⟩
      intro z hz
      rcases List.mem_cons.mp hz with rfl | hz'
      · exact hp
      · exact hl₁ z hz'
    · rw [hp] at h
      obtain rfl : x = a := by injection h
      exact ⟨[], xs, rfl, by simp⟩

theorem head_sortDesc (key : α → Int) (l : List α) :
    (sortDesc key l).head? = firstMaxBy key l := by
  induction l with
  | nil => rfl
  | cons x xs ih =>
    rw [sortDesc]
    cases hs : sortDesc key xs with
    | nil =>
      have hxs : xs = [] := sortDesc_eq_nil.mp hs
      subst hxs
      simp [insertDesc, firstMaxBy]
    | cons y ys =>
      have hsorted := sorted_sortDesc key xs
      rw [hs] at hsorted
      have hy_mem : y ∈ xs := by
        have h' : y ∈ sortDesc key xs := by
          rw [hs]
          exact List.mem_cons_self y ys
        exact mem_sortDesc.mp h'
      have hmax : ∀ z ∈ xs, key z ≤ key y := by
        intro z hz
        have hz' : z ∈ y :: ys := by
          rw [← hs]
          exact mem_sortDesc.mpr hz
        rcases List.mem_cons.mp hz' with rfl | hz''
        · exact le_refl _
        · exact (List.pairwise_cons.mp hsorted).1 z hz''
      have ihy : firstMaxBy key xs = some y := by
        rw [← ih, hs]
        rfl
      by_cases hlt : key x < key y
      · have hhead : (insertDesc key x (y :: ys)).head? = some y := by
          simp [insertDesc, hlt]
        rw [hhead]
        unfold firstMaxBy
        rw [List.find?_cons]
        have hpx : ((x :: xs).all fun w => decide (key w ≤ key x)) = false := by
          rw [List.all_eq_false]
          exact ⟨y, List.mem_cons_of_mem _ hy_mem, by simp; omega⟩
        rw [hpx]
        show some y = List.find? (fun z => (x :: xs).all fun w => decide (key w ≤ key z)) xs
        rw [find?_congr (q := fun z => xs.all fun w => decide (key w ≤ key z)) ?_]
        · exact ihy.symm
        · intro z _
          show ((x :: xs).all fun w => decide (key w ≤ key z))
            = xs.all fun w => decide (key w ≤ key z)
          rw [List.all_cons]
          cases hall : xs.all fun w => decide (key w ≤ key z)
          · rw [Bool.and_false]
          · rw [Bool.and_true]
            have hyz : key y ≤ key z := by
              have := List.all_eq_true.mp hall y hy_mem
              simpa using this
            have hxz : key x ≤ key z := le_trans (le_of_lt hlt) hyz
            simp [hxz]
      · have hhead : (insertDesc key x (y :: ys)).head? = some x := by
          simp [insertDesc, hlt]
        rw [hhead]
        unfold firstMaxBy
        rw [List.find?_cons]
        have hpx : ((x :: xs).all fun w => decide (key w ≤ key x)) = true := by
          rw [List.all_eq_true]
          intro w hw
          rcases List.mem_cons.mp hw with rfl | hw'
          · simp
          · have := hmax w hw'
            simp
            omega
        rw [hpx]

/-! ## Lemmas about the hook execution loop -/

theorem hookExecResult_notCreated_iff (h : LifecycleHook) (b : HookBeh) :
    hookExecResult h b = .notCreated ↔ hookCreated h = false := by
  rcases hb : b.outcome <;> by_cases hc : hookCreated h <;>
    by_cases ht : hookTimesOut h b <;> simp [hookExecResult, hc, ht, hb]

theorem hookFailed_eq_false_iff (r : HookExecResult) :
    hookFailed r = false ↔ r = .completed true := by
  cases r with
  | notCreated => simp [hookFailed]
  | timedOut => simp [hookFailed]
  | raised => simp [hookFailed]
  | completed b => cases b <;> simp [hookFailed]

theorem execHooksLoop_cons (hb : LifecycleHook × HookBeh)
    (rest : List (LifecycleHook × HookBeh)) :
    execHooksLoop (hb :: rest) =
      (if hookFailed (hookExecResult hb.1 hb.2) then
        if hb.1.on_failure = "abort" ∧ hookExecResult hb.1 hb.2 ≠ .notCreated then
          ⟨false, [hb.1],
            if hookExecResult hb.1 hb.2 = .notCreated then [] else [hb.1]⟩
        else
          ⟨false, hb.1 :: (execHooksLoop rest).visited,
            (if hookExecResult hb.1 hb.2 = .notCreated then [] else [hb.1])
              ++ (execHooksLoop rest).invoked⟩
      else
        ⟨(execHooksLoop rest).ok, hb.1 :: (execHooksLoop rest).visited,
          (if hookExecResult hb.1 hb.2 = .notCreated then [] else [hb.1])
            ++ (execHooksLoop rest).invoked⟩) := by
  simp only [execHooksLoop, Bool.and_eq_true, decide_eq_true_eq]

theorem execHooksLoop_no_abort {l : List (LifecycleHook × HookBeh)}
    (h : ∀ hb ∈ l, abortTriggers hb = false) :
    execHooksLoop l =
      ⟨!l.any hookFailedB, l.map (fun hb => hb.1),
        (l.filter (fun hb => hookCreated hb.1)).map (fun hb => hb.1)⟩ := by
  induction l with
  | nil => rfl
  | cons hb rest ih =>
    have hrest := ih (fun x hx => h x (List.mem_cons_of_mem _ hx))
    have hhb := h hb (List.mem_cons_self _ _)
    rw [execHooksLoop_cons, hrest]
    by_cases hf : hookFailed (hookExecResult hb.1 hb.2)
    · have hnoab : ¬ (hb.1.on_failure = "abort" ∧ hookExecResult hb.1 hb.2 ≠ .notCreated) := by
        intro ⟨h1, h2⟩
        rw [abortTriggers, hookFailedB, hf] at hhb
        simp [h1, h2] at hhb
      rw [if_pos hf, if_neg hnoab]
      have hany : (hb :: rest).any hookFailedB = true := by
        rw [List.any_cons, hookFailedB, hf, Bool.true_or]
      rw [hany]
      by_cases hc : hookCreated hb.1
      · have hnc : ¬ (hookExecResult hb.1 hb.2 = .notCreated) := by
          rw [hookExecResult_notCreated_iff]
          simp [hc]
        simp [hnc, List.filter_cons, hc]
      · have hnc : hookExecResult hb.1 hb.2 = .notCreated := by
          rw [hookExecResult_notCreated_iff]
          simp [hc]
        simp [hnc, List.filter_cons, hc]
    · rw [if_neg hf]
      have hcomp : hookExecResult hb.1 hb.2 = .completed true :=
        (hookFailed_eq_false_iff _).mp (Bool.not_eq_true _ ▸ Bool.of_not_eq_true hf)
      have hc : hookCreated hb.1 = true := by
        by_contra hcf
        have : hookExecResult hb.1 hb.2 = .notCreated :=
          (hookExecResult_notCreated_iff _ _).mpr (Bool.of_not_eq_true hcf)
        rw [hcomp] at this
        exact HookExecResult.noConfusion this
      have hnc : ¬ (hookExecResult hb.1 hb.2 = .notCreated) := by
        rw [hcomp]
        exact fun hx => HookExecResult.noConfusion hx
      have hanyf : hookFailedB hb = false := by
        rw [hookFailedB]
        exact Bool.of_not_eq_true hf
      simp [hnc, List.filter_cons, hc, List.any_cons, hanyf]

theorem execHooksLoop_abort {pre : List (LifecycleHook × HookBeh)}
    {hb : LifecycleHook × HookBeh} {post : List (LifecycleHook × HookBeh)}
    (hpre : ∀ x ∈ pre, hookFailedB x = false)
    (habort : abortTriggers hb = true) :
    execHooksLoop (pre ++ hb :: post) =
      ⟨false, pre.map (fun x => x.1) ++ [hb.1], pre.map (fun x => x.1) ++ [hb.1]⟩ := by
  induction pre with
  | nil =>
    rw [abortTriggers, Bool.and_eq_true, Bool.and_eq_true] at habort
    obtain ⟨⟨hfail, hab⟩, hnc⟩ := habort
    rw [List.nil_append, execHooksLoop_cons, if_pos (by rw [hookFailedB] at hfail; exact hfail)]
    rw [if_pos ⟨of_decide_eq_true hab, of_decide_eq_true hnc⟩]
    rw [if_neg (of_decide_eq_true hnc)]
    rfl
  | cons x xs ih =>
    have hx := hpre x (List.mem_cons_self _ _)
    have hrest := ih (fun z hz => hpre z (List.mem_cons_of_mem _ hz))
    have hcomp : hookExecResult x.1 x.2 = .completed true :=
      (hookFailed_eq_false_iff _).mp hx
    have hnc : ¬ (hookExecResult x.1 x.2 = .notCreated) := by
      rw [hcomp]
      exact fun hx' => HookExecResult.noConfusion hx'
    rw [List.cons_append, execHooksLoop_cons,
      if_neg (by rw [← hookFailedB]; simp [hx]), hrest]
    simp [hnc]

theorem execute_eq_loop (hooks : List (LifecycleHook × HookBeh))
    (hook_type : LifecycleHookType) :
    execute_lifecycle_hooks hooks hook_type
      = execHooksLoop (relevantSorted hooks hook_type) := by
  simp only [execute_lifecycle_hooks]
  by_cases hemp : (relevantSorted hooks hook_type).isEmpty = true
  · rw [if_pos hemp, List.isEmpty_iff.mp hemp]
    rfl
  · rw [if_neg hemp]

/-! ## Claim theorems about the hook engine -/

/-- C2 counterexample: in a batch where every hook has `on_failure="abort"`,
a hook that fails because its handler kind is unknown does not stop the
batch — here the unknown-kind hook (priority 9) fails first, yet the
second hook's handler is still invoked. The claim, as stated, says no
subsequent hook of the type may execute once any hook fails. -/
theorem c2_counterexample :
    hookFailedB (hookUnknownAbort, behOk) = true
    ∧ hookUnknownAbort.on_failure = "abort"
    ∧ (execute_lifecycle_hooks [(hookUnknownAbort, behOk), (hookOkAbort, behOk)]
        LifecycleHookType.on_entry).invoked = [hookOkAbort] := by decide

/-- C2 (amended): in an all-abort batch, once a hook fails by its execution
returning falsy, raising, or timing out (any failure other than
handler-creation), no later hook of the batch is visited or invoked and the
call returns `False`; handler-creation failures only poison the aggregate
result. -/
theorem c2_abort_stops_batch (hooks : List (LifecycleHook × HookBeh))
    (hook_type : LifecycleHookType)
    (pre : List (LifecycleHook × HookBeh)) (hb : LifecycleHook × HookBeh)
    (post : List (LifecycleHook × HookBeh))
    (hall : ∀ x ∈ hooks, x.1.on_failure = "abort")
    (hsplit : relevantSorted hooks hook_type = pre ++ hb :: post)
    (hpre : ∀ x ∈ pre, hookFailedB x = false)
    (hfail : hookFailedB hb = true)
    (hcreated : hookExecResult hb.1 hb.2 ≠ .notCreated) :
    execute_lifecycle_hooks hooks hook_type
      = ⟨false, pre.map (fun x => x.1) ++ [hb.1], pre.map (fun x => x.1) ++ [hb.1]⟩ := by
  have hmem : hb ∈ hooks := by
    have h1 : hb ∈ relevantSorted hooks hook_type := by
      rw [hsplit]
      exact List.mem_append_right _ (List.mem_cons_self _ _)
    exact List.mem_of_mem_filter (mem_sortDesc.mp h1)
  have habort : abortTriggers hb = true := by
    rw [abortTriggers, hfail]
    simp [hall hb hmem, hcreated]
  rw [execute_eq_loop, hsplit]
  have hne : (pre ++ hb :: post).isEmpty = false := by
    cases pre <;> rfl
  exact execHooksLoop_abort hpre habort

/-- C3: in an all-ignore batch every relevant hook is processed even after
earlier failures, the handlers invoked are exactly those that could be
created, and the aggregate result is `True` exactly when no hook in the
batch failed (in particular an empty batch yields `True`). -/
theorem c3_ignore_runs_all (hooks : List (LifecycleHook × HookBeh))
    (hook_type : LifecycleHookType)
    (hall : ∀ x ∈ hooks, x.1.on_failure = "ignore") :
    (execute_lifecycle_hooks hooks hook_type).visited
        = (relevantSorted hooks hook_type).map (fun x => x.1)
    ∧ (execute_lifecycle_hooks hooks hook_type).invoked
        = ((relevantSorted hooks hook_type).filter (fun x => hookCreated x.1)).map
            (fun x => x.1)
    ∧ ((execute_lifecycle_hooks hooks hook_type).ok = true
        ↔ ∀ x ∈ relevantSorted hooks hook_type, hookFailedB x = false) := by
  have hnoabort : ∀ x ∈ relevantSorted hooks hook_type, abortTriggers x = false := by
    intro x hx
    have hmem : x ∈ hooks := List.mem_of_mem_filter (mem_sortDesc.mp hx)
    rw [abortTriggers]
    simp [hall x hmem]
  rw [execute_eq_loop, execHooksLoop_no_abort hnoabort]
  refine ⟨rfl, rfl, ?_⟩
  simp only [Bool.not_eq_true', List.any_eq_false, Bool.not_eq_true]

/-- C4 counterexample: an abort-policy failure truncates the batch, so the
call does not run every hook of the requested type — here two `on_entry`
hooks are configured but only one is visited. -/
theorem c4_counterexample :
    ((execute_lifecycle_hooks [(hookFailAbort, behFail), (hookOkAbort, behOk)]
        LifecycleHookType.on_entry).visited).length = 1
    ∧ (relevantSorted [(hookFailAbort, behFail), (hookOkAbort, behOk)]
        LifecycleHookType.on_entry).length = 2 := by decide

/-- C4 (amended): provided no hook of the batch fails with the abort
policy, `execute_lifecycle_hooks` processes exactly the hooks whose
`hook_type` equals the requested type (a permutation of the type filter),
in descending order of `priority`, with equal priorities kept in original
list order (the per-priority filtrations of the executed batch and of the
original filter agree); execution is sequential by construction. -/
theorem c4_order_and_stability (hooks : List (LifecycleHook × HookBeh))
    (hook_type : LifecycleHookType)
    (hnoabort : ∀ x ∈ hooks, abortTriggers x = false) :
    (execute_lifecycle_hooks hooks hook_type).visited
        = (relevantSorted hooks hook_type).map (fun x => x.1)
    ∧ (relevantSorted hooks hook_type).Perm
        (hooks.filter (fun hb => hb.1.hook_type = hook_type))
    ∧ (relevantSorted hooks hook_type).Pairwise
        (fun a b => b.1.priority ≤ a.1.priority)
    ∧ ∀ n : Int,
        (relevantSorted hooks hook_type).filter (fun hb => decide (hb.1.priority = n))
          = (hooks.filter (fun hb => hb.1.hook_type = hook_type)).filter
              (fun hb => decide (hb.1.priority = n)) := by
  refine ⟨?_, perm_sortDesc _ _, sorted_sortDesc _ _, fun n => filter_sortDesc _ _ n⟩
  have h := execHooksLoop_no_abort (l := relevantSorted hooks hook_type)
    (fun x hx => hnoabort x (List.mem_of_mem_filter (mem_sortDesc.mp hx)))
  rw [execute_eq_loop, h]

/-- C9 counterexample: a hook with `async_execution=False` is awaited
without any `wait_for` wrapper, so a run lasting twice its configured
timeout still completes successfully — the claim says it should count as
failed regardless of the `async_execution` flag. -/
theorem c9_counterexample :
    hookSyncSlow.async_execution = false
    ∧ hookSyncSlow.timeout_seconds = some 5
    ∧ (5 : ℚ) < behSlow.duration
    ∧ (execute_lifecycle_hooks [(hookSyncSlow, behSlow)]
        LifecycleHookType.on_entry).ok = true
    ∧ (execute_lifecycle_hooks [(hookSyncSlow, behSlow)]
        LifecycleHookType.on_entry).invoked = [hookSyncSlow] := by decide

/-- C9 (amended): the timeout race applies exactly to hooks with
`async_execution=True` and a truthy `timeout_seconds`: such a hook whose
run exceeds the timeout is cut off as `timedOut`, counts as failed, and
makes the batch fail; a hook with `async_execution=False`, or with no
truthy timeout, never times out. -/
theorem c9_timeout_enforcement (hk : LifecycleHook) (b : HookBeh) :
    (∀ t : ℚ, hk.timeout_seconds = some t → hk.async_execution = true → t ≠ 0 →
      hookCreated hk = true → t < b.duration →
      hookExecResult hk b = .timedOut
        ∧ hookFailedB (hk, b) = true
        ∧ (execute_lifecycle_hooks [(hk, b)] hk.hook_type).ok = false)
    ∧ (hk.async_execution = false → hookExecResult hk b ≠ .timedOut)
    ∧ (hk.timeout_seconds = none → hookExecResult hk b ≠ .timedOut) := by
  refine ⟨?_, ?_, ?_⟩
  · intro t hts hasync htz hcr hdur
    have htime : hookTimesOut hk b = true := by
      rw [hookTimesOut, hasync, hts]
      simp [htz, hdur]
    have hres : hookExecResult hk b = .timedOut := by
      rw [hookExecResult, hcr]
      simp [htime]
    refine ⟨hres, by rw [hookFailedB, hres]; rfl, ?_⟩
    have hrel : relevantSorted [(hk, b)] hk.hook_type = [(hk, b)] := by
      simp [relevantSorted, sortDesc, insertDesc]
    rw [execute_eq_loop, hrel, execHooksLoop_cons]
    rw [if_pos (by rw [hres]; rfl)]
    by_cases hab : hk.on_failure = "abort" ∧ hookExecResult hk b ≠ .notCreated
    · rw [if_pos hab]
    · rw [if_neg hab]
  · intro hasync
    have htime : hookTimesOut hk b = false := by
      rw [hookTimesOut, hasync]
      rfl
    by_cases hcr : hookCreated hk
    · rcases ho : b.outcome <;> simp [hookExecResult, hcr, htime, ho]
    · simp [hookExecResult, hcr]
  · intro hts
    have htime : hookTimesOut hk b = false := by
      rw [hookTimesOut, hts]
      simp
    by_cases hcr : hookCreated hk
    · rcases ho : b.outcome <;> simp [hookExecResult, hcr, htime, ho]
    · simp [hookExecResult, hcr]

/-- Witness for the amended C2 theorem at a concrete batch: the first
(priority-5) abort hook fails by returning falsy, the second hook is never
visited, and the call returns `False`. -/
theorem c2_witness :
    (execute_lifecycle_hooks [(hookFailAbort, behFail), (hookOkAbort, behOk)]
        LifecycleHookType.on_entry).ok = false
    ∧ (execute_lifecycle_hooks [(hookFailAbort, behFail), (hookOkAbort, behOk)]
        LifecycleHookType.on_entry).invoked = [hookFailAbort] := by
  have h := c2_abort_stops_batch [(hookFailAbort, behFail), (hookOkAbort, behOk)]
    LifecycleHookType.on_entry [] (hookFailAbort, behFail) [(hookOkAbort, behOk)]
    (by decide) (by decide) (by decide) (by decide) (by decide)
  rw [h]
  exact ⟨rfl, rfl⟩

/-- Witness for C3 at a concrete batch: a failing ignore hook does not stop
the later hook, and the aggregate result is `False`. -/
theorem c3_witness :
    (execute_lifecycle_hooks [(hookFailIgnore, behFail), (hookOkIgnore, behOk)]
        LifecycleHookType.on_entry).visited = [hookFailIgnore, hookOkIgnore]
    ∧ (execute_lifecycle_hooks [(hookFailIgnore, behFail), (hookOkIgnore, behOk)]
        LifecycleHookType.on_entry).ok = false := by
  have h := c3_ignore_runs_all [(hookFailIgnore, behFail), (hookOkIgnore, behOk)]
    LifecycleHookType.on_entry (by decide)
  refine ⟨by rw [h.1]; decide, ?_⟩
  cases hok : (execute_lifecycle_hooks [(hookFailIgnore, behFail), (hookOkIgnore, behOk)]
      LifecycleHookType.on_entry).ok
  · rfl
  · exact absurd (h.2.2.mp hok (hookFailIgnore, behFail) (by decide)) (by decide)

/-- Witness for the amended C4 theorem: hooks configured with priorities
[1, 5, 3] are visited in the order [5, 3, 1]. -/
theorem c4_witness :
    (execute_lifecycle_hooks [(hookPrio1, behOk), (hookPrio5, behOk), (hookPrio3, behOk)]
        LifecycleHookType.on_entry).visited = [hookPrio5, hookPrio3, hookPrio1] := by
  have h := c4_order_and_stability
    [(hookPrio1, behOk), (hookPrio5, behOk), (hookPrio3, behOk)]
    LifecycleHookType.on_entry (by decide)
  rw [h.1]
  decide

/-- Witness for the amended C9 theorem: an async hook whose run would take
ten seconds is cut off by its default five-second timeout and the batch
fails. -/
theorem c9_witness :
    hookExecResult hookAsyncSlow behSlow = HookExecResult.timedOut
    ∧ (execute_lifecycle_hooks [(hookAsyncSlow, behSlow)]
        LifecycleHookType.on_entry).ok = false := by
  have h := (c9_timeout_enforcement hookAsyncSlow behSlow).1 5
    rfl rfl (by decide) (by decide) (by decide)
  exact ⟨h.1, h.2.2⟩

/-! ## Claim theorems about the mode manager -/

/-- C1: `request_transition` returns `False` with no transition when manual
switching is disabled and the reason is exactly `"manual"`; returns `False`
with no transition whenever the target is not a configured mode; is a pure
no-op returning `True` (state unchanged, no hooks fired) when none of the
refusals apply and the target is the current mode; and otherwise executes
the transition unconditionally — its outcome does not consult the cooldown
map or the transition rules, and it succeeds. -/
theorem c1_request_transition_cases (m : ModeManager) (now : ℚ)
    (target_mode reason : String) :
    (m.config.allow_manual_switching = false → reason = "manual" →
        request_transition m now target_mode reason = ⟨false, m, []⟩)
    ∧ ((m.config.modes.lookup target_mode).isNone = true →
        request_transition m now target_mode reason = ⟨false, m, []⟩)
    ∧ ((m.config.allow_manual_switching = true ∨ reason ≠ "manual") →
        (m.config.modes.lookup target_mode).isSome = true →
        target_mode = m.state.current_mode →
        request_transition m now target_mode reason = ⟨true, m, []⟩)
    ∧ ((m.config.allow_manual_switching = true ∨ reason ≠ "manual") →
        (m.config.modes.lookup target_mode).isSome = true →
        target_mode ≠ m.state.current_mode →
        request_transition m now target_mode reason
            = execute_transition m now target_mode reason
        ∧ (execute_transition m now target_mode reason).ok = true
        ∧ ∀ (cds : List (String × ℚ)) (rules : List TransitionRule),
            (execute_transition
              { m with transition_cooldowns := cds,
                       config := { m.config with transition_rules := rules } }
              now target_mode reason).ok = true) := by
  refine ⟨?_, ?_, ?_, ?_⟩
  · intro h1 h2
    simp [request_transition, h1, h2]
  · intro hN
    by_cases hc1 : (!m.config.allow_manual_switching && decide (reason = "manual")) = true
    · simp [request_transition, hc1]
    · simp [request_transition, hc1, hN]
  · intro hor hS heq
    have hc1 : (!m.config.allow_manual_switching && decide (reason = "manual")) = false := by
      rcases hor with h | h <;> simp [h]
    have hN : (m.config.modes.lookup target_mode).isNone = false := by
      cases hopt : m.config.modes.lookup target_mode
      · rw [hopt] at hS
        exact absurd hS (by simp)
      · rfl
    simp only [request_transition]
    rw [if_neg (by simp [hc1]), if_neg (by simp [hN]), if_pos heq]
  · intro hor hS hne
    have hc1 : (!m.config.allow_manual_switching && decide (reason = "manual")) = false := by
      rcases hor with h | h <;> simp [h]
    have hN : (m.config.modes.lookup target_mode).isNone = false := by
      cases hopt : m.config.modes.lookup target_mode
      · rw [hopt] at hS
        exact absurd hS (by simp)
      · rfl
    refine ⟨by simp [request_transition, hc1, hN, hne], ?_, ?_⟩
    · simp only [execute_transition]
      rw [if_pos hS]
    · intro cds rules
      simp only [execute_transition]
      rw [if_pos hS]

/-- Witness for C1: on the sample manager a programmatic request into mode
`"b"` takes the unconditional-execution branch and succeeds. -/
theorem c1_witness :
    (request_transition sampleMgr 0 "b" "programmatic").ok = true := by
  have h := (c1_request_transition_cases sampleMgr 0 "b" "programmatic").2.2.2
    (Or.inl rfl) (by decide) (by decide)
  rw [h.1]
  exact h.2.1

/-- C5: for a non-empty input text, `check_input_triggered_transitions`
returns `None` exactly when no configured rule matches (right source mode,
input-triggered kind, a trigger keyword occurring case-insensitively in the
text, and not refused by the cooldown/unknown-target check); otherwise it
returns the target of a matching rule of maximal priority such that every
matching rule listed before it has strictly smaller priority (ties go to
the earliest rule in the configured list). -/
theorem c5_input_selection (m : ModeManager) (now : ℚ) (input_text : String)
    (hne : input_text ≠ "") :
    (check_input_triggered_transitions m now input_text = none
      ↔ m.config.transition_rules.filter
          (inputRuleMatches m now (strLower input_text)) = [])
    ∧ ∀ target, check_input_triggered_transitions m now input_text = some target →
        ∃ pre r post,
          m.config.transition_rules.filter (inputRuleMatches m now (strLower input_text))
            = pre ++ r :: post
          ∧ r.to_mode = target
          ∧ (∀ r' ∈ m.config.transition_rules.filter
                (inputRuleMatches m now (strLower input_text)),
              r'.priority ≤ r.priority)
          ∧ (∀ r' ∈ pre, r'.priority < r.priority) := by
  have hck : check_input_triggered_transitions m now input_text
      = match sortDesc (fun r => r.priority)
          (m.config.transition_rules.filter (inputRuleMatches m now (strLower input_text))) with
        | [] => none
        | best :: _ => some best.to_mode := by
    rw [check_input_triggered_transitions, if_neg hne]
  constructor
  · rw [hck]
    cases hs : sortDesc (fun r => r.priority)
        (m.config.transition_rules.filter (inputRuleMatches m now (strLower input_text))) with
    | nil => simp [sortDesc_eq_nil.mp hs]
    | cons b bs =>
      simp only
      constructor
      · intro hx
        exact absurd hx (by simp)
      · intro hx
        rw [hx] at hs
        exact absurd hs (by simp [sortDesc])
  · intro target htgt
    rw [hck] at htgt
    cases hs : sortDesc (fun r => r.priority)
        (m.config.transition_rules.filter (inputRuleMatches m now (strLower input_text))) with
    | nil =>
      rw [hs] at htgt
      exact absurd htgt (by simp)
    | cons best rest =>
      rw [hs] at htgt
      have htar : best.to_mode = target := by
        injection htgt
      have hfm : (m.config.transition_rules.filter
            (inputRuleMatches m now (strLower input_text))).find?
          (fun x => (m.config.transition_rules.filter
              (inputRuleMatches m now (strLower input_text))).all
            (fun y => decide (y.priority ≤ x.priority))) = some best := by
        have := head_sortDesc (fun r : TransitionRule => r.priority)
          (m.config.transition_rules.filter (inputRuleMatches m now (strLower input_text)))
        rw [hs] at this
        exact this.symm
      have hmax : ∀ r' ∈ m.config.transition_rules.filter
          (inputRuleMatches m now (strLower input_text)),
          r'.priority ≤ best.priority := by
        intro r' hr'
        have hp := List.find?_some hfm
        have := List.all_eq_true.mp hp r' hr'
        simpa using this
      obtain ⟨pre, post, hsplit, hpre⟩ := find?_split hfm
      refine ⟨pre, best, post, hsplit, htar, hmax, ?_⟩
      intro r' hr'
      have hfalse := hpre r' hr'
      rw [List.all_eq_false] at hfalse
      obtain ⟨y, hy, hyp⟩ := hfalse
      have h1 : r'.priority < y.priority := by
        simp at hyp
        omega
      have h2 : y.priority ≤ best.priority := hmax y hy
      omega

/-- Witness for C5: on the sample manager the input
`"advanced EMERGENCY heLp"` matches both sample rules and the priority-10
wildcard rule wins. -/
theorem c5_witness :
    check_input_triggered_transitions sampleMgr 1 "advanced EMERGENCY heLp"
      = some "b" := by
  have h := (c5_input_selection sampleMgr 1 "advanced EMERGENCY heLp" (by decide)).1
  cases hck : check_input_triggered_transitions sampleMgr 1 "advanced EMERGENCY heLp" with
  | none => exact absurd (h.mp hck) (by decide)
  | some target =>
    have h2 := (c5_input_selection sampleMgr 1 "advanced EMERGENCY heLp" (by decide)).2
      target hck
    obtain ⟨pre, r, post, hsplit, htar, hmaxr, hpre⟩ := h2
    have hmem : r ∈ sampleMgr.config.transition_rules.filter
        (inputRuleMatches sampleMgr 1 (strLower "advanced EMERGENCY heLp")) := by
      rw [hsplit]
      exact List.mem_append_right _ (List.mem_cons_self _ _)
    have hfilter : sampleMgr.config.transition_rules.filter
        (inputRuleMatches sampleMgr 1 (strLower "advanced EMERGENCY heLp"))
        = [sampleWildRule, sampleRuleAB] := by decide
    rw [hfilter] at hmem hmaxr
    have hwild : r = sampleWildRule := by
      rcases List.mem_cons.mp hmem with h' | h'
      · exact h'
      · rcases List.mem_cons.mp h' with h'' | h''
        · exfalso
          have := hmaxr sampleWildRule (List.mem_cons_self _ _)
          rw [h''] at this
          exact absurd this (by decide)
        · exact absurd h'' (List.not_mem_nil r)
    rw [← htar, hwild]
    rfl

/-- C6: `_execute_transition` records the cooldown timestamp for the key
`current->target` at the start of the attempt — in particular also when the
attempt fails — and afterwards `_can_transition` refuses any rule for that
exact pair with a positive cooldown while less than `cooldown_seconds` has
elapsed since the recorded timestamp, and permits it again once
`cooldown_seconds` has elapsed (the rule's target being a configured mode,
which is the case for every rule `_execute_transition` is reachable
from). -/
theorem c6_cooldown_discipline (m : ModeManager) (now : ℚ)
    (target_mode reason : String) (rule : TransitionRule)
    (hfrom : rule.from_mode = m.state.current_mode)
    (hto : rule.to_mode = target_mode)
    (_hpos : 0 < rule.cooldown_seconds) :
    ((execute_transition m now target_mode reason).mgr.transition_cooldowns.lookup
        (transitionKey m.state.current_mode target_mode) = some now)
    ∧ (∀ now' : ℚ, now' - now < rule.cooldown_seconds →
        can_transition (execute_transition m now target_mode reason).mgr now' rule
          = false)
    ∧ (∀ now' : ℚ, rule.cooldown_seconds ≤ now' - now →
        (m.config.modes.lookup target_mode).isSome = true →
        can_transition (execute_transition m now target_mode reason).mgr now' rule
          = true) := by
  have hcool : (execute_transition m now target_mode reason).mgr.transition_cooldowns
      = (transitionKey m.state.current_mode target_mode, now) :: m.transition_cooldowns := by
    simp only [execute_transition]
    by_cases hS : (m.config.modes.lookup target_mode).isSome = true
    · rw [if_pos hS]
    · rw [if_neg hS]
  have hcfg : (execute_transition m now target_mode reason).mgr.config = m.config := by
    simp only [execute_transition]
    by_cases hS : (m.config.modes.lookup target_mode).isSome = true
    · rw [if_pos hS]
    · rw [if_neg hS]
  have hlook : (execute_transition m now target_mode reason).mgr.transition_cooldowns.lookup
      (transitionKey rule.from_mode rule.to_mode) = some now := by
    rw [hfrom, hto, hcool]
    simp [List.lookup]
  refine ⟨by rw [hcool]; simp [List.lookup], ?_, ?_⟩
  · intro now' hlt
    simp only [can_transition, hlook]
    rw [if_pos hlt]
  · intro now' hge hS
    simp only [can_transition, hlook]
    rw [if_neg (not_lt.mpr hge), hcfg, hto]
    exact hS

/-- Witness for C6: executing `a -> b` at time 0 on the sample manager puts
the pair in cooldown at time 1 and frees it again at time 10 (the rule's
cooldown is 5 seconds). -/
theorem c6_witness :
    can_transition (execute_transition sampleMgr 0 "b" "x").mgr 1 sampleRuleAB = false
    ∧ can_transition (execute_transition sampleMgr 0 "b" "x").mgr 10 sampleRuleAB = true := by
  have h := c6_cooldown_discipline sampleMgr 0 "b" "x" sampleRuleAB rfl rfl
    (by norm_num [sampleRuleAB])
  exact ⟨h.2.1 1 (by norm_num [sampleRuleAB]),
    h.2.2 10 (by norm_num [sampleRuleAB]) (by decide)⟩

/-- C7: the history-trimming step keeps the transition history at 50
entries at most and reduces it to exactly the most recent 25 whenever the
modification pushed it beyond 50; `_execute_transition` applies it to the
appended history and `_load_mode_state` to the history extended from the
snapshot. -/
theorem c7_history_bound (m : ModeManager) (now : ℚ) (target_mode reason : String)
    (config : ModeSystemConfig) (st : ModeState) (snap : ModeSnapshot) (lam : String) :
    (∀ l : List String, (trimHistory l).length ≤ 50
        ∧ (l.length > 50 → trimHistory l = lastN 25 l ∧ (trimHistory l).length = 25))
    ∧ ((m.config.modes.lookup target_mode).isSome = true →
        (execute_transition m now target_mode reason).mgr.state.transition_history
          = trimHistory (m.state.transition_history
              ++ [transitionKey m.state.current_mode target_mode ++ ":" ++ reason]))
    ∧ (snap.last_active_mode = some lam → lam ≠ "" →
        (config.modes.lookup lam).isSome = true → lam ≠ config.default_mode →
        snap.transition_history ≠ [] →
        (load_mode_state config st (some snap)).transition_history
          = trimHistory (st.transition_history ++ snap.transition_history)) := by
  refine ⟨?_, ?_, ?_⟩
  · intro l
    by_cases h : l.length > 50
    · rw [trimHistory, if_pos h]
      have hlen : (lastN 25 l).length = 25 := by
        rw [lastN, List.length_drop]
        omega
      exact ⟨by omega, fun _ => ⟨rfl, hlen⟩⟩
    · rw [trimHistory, if_neg h]
      exact ⟨by omega, fun h' => absurd h' h⟩
  · intro hS
    simp only [execute_transition]
    rw [if_pos hS]
  · intro hlam hne hS hnd hnh
    have hemp : snap.transition_history.isEmpty = false := by
      cases hh : snap.transition_history
      · exact absurd hh hnh
      · rfl
    simp only [load_mode_state, hlam]
    rw [if_pos ⟨hne, hS, hnd⟩, hemp]
    rfl

/-- Witness for C7: a 60-entry history appended with one more entry is
trimmed to exactly its most recent 25 entries, and on the sample manager
the executed transition's history equals the trimmed appended history. -/
theorem c7_witness :
    trimHistory (List.replicate 60 "e") = lastN 25 (List.replicate 60 "e")
    ∧ (trimHistory (List.replicate 60 "e")).length = 25
    ∧ (execute_transition sampleMgr 0 "b" "x").mgr.state.transition_history
        = trimHistory (sampleMgr.state.transition_history ++ ["a->b:x"]) := by
  have h := c7_history_bound sampleMgr 0 "b" "x" sampleCfg { current_mode := "a" }
    { last_active_mode := none } "z"
  have h1 := (h.1 (List.replicate 60 "e")).2 (by decide)
  exact ⟨h1.1, h1.2, h.2.1 (by decide)⟩

/-- C8 counterexample: the mode named by the empty string is configured and
differs from the default mode `"d"`, a reachable manager sitting in that
mode saves a snapshot with `last_active_mode = ""`, yet a fresh manager
reading the snapshot stays in `"d"` — Python's truthiness test drops the
falsy saved name, contradicting the claim's "exactly when that mode exists
in config.modes and differs from default_mode". -/
theorem c8_counterexample :
    sampleMgrE.config.mode_memory_enabled = true
    ∧ save_mode_state sampleMgrE 1 = some sampleSnapE
    ∧ sampleSnapE.last_active_mode = some ""
    ∧ (sampleCfgE.modes.lookup "").isSome = true
    ∧ "" ≠ sampleCfgE.default_mode
    ∧ (initManager sampleCfgE 2 (some sampleSnapE)).map (fun mm => mm.state.current_mode)
        = some "d" := by decide

/-- C8 (amended): with mode memory enabled, `_save_mode_state` produces a
snapshot holding the current mode, the previous mode, the timestamp, and
the trailing ten history entries, and a fresh manager reading that snapshot
(over a configuration whose default mode exists) starts in the saved mode
exactly when the saved name is non-empty, is a configured mode, and differs
from the default mode; in every other case it starts in the default mode,
and initialisation succeeds either way. The atomic write-temp-then-rename
is a file-system step outside the embedding. -/
theorem c8_roundtrip (m : ModeManager) (now now2 : ℚ) (cfg2 : ModeSystemConfig)
    (hmem : m.config.mode_memory_enabled = true)
    (hmem2 : cfg2.mode_memory_enabled = true)
    (hdef : (cfg2.modes.lookup cfg2.default_mode).isSome = true) :
    save_mode_state m now = some
      { last_active_mode := some m.state.current_mode
        previous_mode := m.state.previous_mode
        timestamp := now
        transition_history := lastN 10 m.state.transition_history }
    ∧ ∀ snap, save_mode_state m now = some snap →
      ∃ m2, initManager cfg2 now2 (some snap) = some m2
        ∧ m2.state.current_mode =
            (if m.state.current_mode ≠ ""
                ∧ (cfg2.modes.lookup m.state.current_mode).isSome = true
                ∧ m.state.current_mode ≠ cfg2.default_mode
             then m.state.current_mode else cfg2.default_mode) := by
  have hsave : save_mode_state m now = some
      { last_active_mode := some m.state.current_mode
        previous_mode := m.state.previous_mode
        timestamp := now
        transition_history := lastN 10 m.state.transition_history } := by
    rw [save_mode_state, if_pos hmem]
  refine ⟨hsave, ?_⟩
  intro snap hsnap
  rw [hsave] at hsnap
  have hsnap' : snap =
      { last_active_mode := some m.state.current_mode
        previous_mode := m.state.previous_mode
        timestamp := now
        transition_history := lastN 10 m.state.transition_history } := by
    injection hsnap with h'
    exact h'.symm
  subst hsnap'
  have hN : (cfg2.modes.lookup cfg2.default_mode).isNone = false := by
    cases hopt : cfg2.modes.lookup cfg2.default_mode
    · rw [hopt] at hdef
      exact absurd hdef (by simp)
    · rfl
  simp only [initManager]
  rw [if_neg (by simp [hN])]
  refine ⟨_, rfl, ?_⟩
  rw [if_pos hmem2]
  simp only [load_mode_state]
  by_cases hcond : m.state.current_mode ≠ ""
      ∧ (cfg2.modes.lookup m.state.current_mode).isSome = true
      ∧ m.state.current_mode ≠ cfg2.default_mode
  · rw [if_pos hcond, if_pos hcond]
  · rw [if_neg hcond, if_neg hcond]

/-- Witness for the amended C8 theorem: the manager that transitioned to
`"b"` saves that mode, and a fresh manager over the same configuration
restores `"b"` instead of the default `"a"`. -/
theorem c8_witness :
    ∃ m2, initManager sampleCfg 9 (some sampleSnapB) = some m2
      ∧ m2.state.current_mode = "b" := by
  have h := c8_roundtrip sampleMgrAfter 7 9 sampleCfg (by decide) (by decide) (by decide)
  have hsnap : save_mode_state sampleMgrAfter 7 = some sampleSnapB := by decide
  obtain ⟨m2, hinit, hcur⟩ := h.2 sampleSnapB hsnap
  rw [if_pos (by decide)] at hcur
  exact ⟨m2, hinit, by rw [hcur]; decide⟩

/-! ## Reachability invariant for C10 -/

theorem transitionKey_data (f t : String) :
    (transitionKey f t).data = f.data ++ ('-' :: '>' :: t.data) := by
  rw [transitionKey, String.data_append, String.data_append, List.append_assoc]
  rfl

theorem startsWithStar_transitionKey {f t : String}
    (h : startsWithStar (transitionKey f t) = true) : startsWithStar f = true := by
  rw [startsWithStar, transitionKey_data] at h
  cases hf : f.data with
  | nil =>
    rw [hf] at h
    exact absurd h (by simp)
  | cons c cs =>
    rw [hf] at h
    simp at h
    rw [startsWithStar, hf]
    simp [h]

theorem lookup_isSome_mem {β : Type} {l : List (String × β)} {q : String}
    (h : (l.lookup q).isSome = true) : ∃ v, (q, v) ∈ l := by
  induction l with
  | nil => exact absurd h (by simp [List.lookup])
  | cons kv rest ih =>
    obtain ⟨k, v⟩ := kv
    rw [List.lookup] at h
    cases hqk : q == k
    · rw [hqk] at h
      obtain ⟨w, hw⟩ := ih h
      exact ⟨w, List.mem_cons_of_mem _ hw⟩
    · have : q = k := eq_of_beq hqk
      subst this
      exact ⟨v, List.mem_cons_self _ _⟩

theorem lookup_none_of_no_star {l : List (String × ℚ)} {q : String}
    (hall : ∀ kv ∈ l, startsWithStar kv.1 = false)
    (hq : startsWithStar q = true) : l.lookup q = none := by
  induction l with
  | nil => rfl
  | cons kv rest ih =>
    obtain ⟨k, v⟩ := kv
    have hk := hall (k, v) (List.mem_cons_self _ _)
    rw [List.lookup]
    cases hqk : q == k
    · exact ih (fun x hx => hall x (List.mem_cons_of_mem _ hx))
    · exfalso
      have heq : q = k := eq_of_beq hqk
      rw [← heq] at hk
      rw [hq] at hk
      exact Bool.noConfusion hk

theorem load_current_ok (config : ModeSystemConfig) (st : ModeState)
    (file : Option ModeSnapshot)
    (h : (config.modes.lookup st.current_mode).isSome = true) :
    (config.modes.lookup (load_mode_state config st file).current_mode).isSome = true := by
  cases file with
  | none => exact h
  | some snap =>
    cases hl : snap.last_active_mode with
    | none => simp only [load_mode_state, hl]; exact h
    | some lam =>
      simp only [load_mode_state, hl]
      by_cases hcond : lam ≠ "" ∧ (config.modes.lookup lam).isSome = true
          ∧ lam ≠ config.default_mode
      · rw [if_pos hcond]
        exact hcond.2.1
      · rw [if_neg hcond]
        exact h

theorem init_inv {config : ModeSystemConfig} {now : ℚ} {file : Option ModeSnapshot}
    {m : ModeManager} (h : initManager config now file = some m) :
    managerInv config m := by
  rw [initManager] at h
  by_cases hN : (config.modes.lookup config.default_mode).isNone = true
  · rw [if_pos hN] at h
    exact absurd h (by simp)
  · rw [if_neg hN] at h
    have hS : (config.modes.lookup config.default_mode).isSome = true := by
      cases hopt : config.modes.lookup config.default_mode
      · rw [hopt] at hN
        exact absurd rfl hN
      · rfl
    injection h with h'
    subst h'
    refine ⟨rfl, ?_, by intro kv hkv; exact absurd hkv (List.not_mem_nil kv)⟩
    by_cases hmem : config.mode_memory_enabled = true
    · rw [if_pos hmem]
      exact load_current_ok config _ file hS
    · rw [if_neg hmem]
      exact hS

theorem exec_preserves_inv {config : ModeSystemConfig} {m : ModeManager}
    (h : managerInv config m) (now : ℚ) (target_mode reason : String) :
    managerInv config (execute_transition m now target_mode reason).mgr := by
  obtain ⟨hc, hcur, hcool⟩ := h
  simp only [execute_transition]
  by_cases hS : (m.config.modes.lookup target_mode).isSome = true
  · rw [if_pos hS]
    refine ⟨hc, by rw [← hc]; exact hS, ?_⟩
    intro kv hkv
    rcases List.mem_cons.mp hkv with rfl | hkv'
    · exact ⟨m.state.current_mode, target_mode, rfl, hcur⟩
    · exact hcool kv hkv'
  · rw [if_neg hS]
    refine ⟨hc, hcur, ?_⟩
    intro kv hkv
    rcases List.mem_cons.mp hkv with rfl | hkv'
    · exact ⟨m.state.current_mode, target_mode, rfl, hcur⟩
    · exact hcool kv hkv'

theorem request_preserves_inv {config : ModeSystemConfig} {m : ModeManager}
    (h : managerInv config m) (now : ℚ) (target_mode reason : String) :
    managerInv config (request_transition m now target_mode reason).mgr := by
  simp only [request_transition]
  by_cases h1 : (!m.config.allow_manual_switching && decide (reason = "manual")) = true
  · rw [if_pos h1]
    exact h
  · rw [if_neg h1]
    by_cases h2 : (m.config.modes.lookup target_mode).isNone = true
    · rw [if_pos h2]
      exact h
    · rw [if_neg h2]
      by_cases h3 : target_mode = m.state.current_mode
      · rw [if_pos h3]
        exact h
      · rw [if_neg h3]
        exact exec_preserves_inv h now target_mode reason

theorem tickInput_preserves_inv {config : ModeSystemConfig} {m : ModeManager}
    (h : managerInv config m) (now : ℚ) (input_text : Option String)
    (ev : List HookEvent) :
    managerInv config (tickInput m now input_text ev).mgr := by
  cases input_text with
  | none => exact h
  | some s =>
    simp only [tickInput]
    by_cases hs : s = ""
    · rw [if_pos hs]
      exact h
    · rw [if_neg hs]
      cases check_input_triggered_transitions m now s with
      | none => exact h
      | some target =>
        dsimp only
        by_cases ht : target = ""
        · rw [if_pos ht]
          exact h
        · rw [if_neg ht]
          have hexec := exec_preserves_inv h now target "input_triggered"
          cases hok : (execute_transition m now target "input_triggered").ok
          · simp only [Bool.false_eq_true, if_false]
            exact hexec
          · simp only [if_true]
            exact hexec

theorem tick_preserves_inv {config : ModeSystemConfig} {m : ModeManager}
    (h : managerInv config m) (now : ℚ) (input_text : Option String) :
    managerInv config (process_tick m now input_text).mgr := by
  simp only [process_tick]
  cases (check_time_based_transitions m now).1 with
  | none => exact tickInput_preserves_inv h now input_text _
  | some target =>
    dsimp only
    by_cases ht : target = ""
    · rw [if_pos ht]
      exact tickInput_preserves_inv h now input_text _
    · rw [if_neg ht]
      have hexec := exec_preserves_inv h now target "timeout"
      cases hok : (execute_transition m now target "timeout").ok
      · simp only [Bool.false_eq_true, if_false]
        exact tickInput_preserves_inv hexec now input_text _
      · simp only [if_true]
        exact hexec

theorem reachable_inv {config : ModeSystemConfig} {m : ModeManager}
    (h : Reachable config m) : managerInv config m := by
  induction h with
  | init now file m h => exact init_inv h
  | request m now target_mode reason _ ih => exact request_preserves_inv ih now target_mode reason
  | tick m now input_text _ ih => exact tick_preserves_inv ih now input_text

/-- C10: in every reachable manager state over a configuration whose mode
names do not begin with `'*'`, every key in `transition_cooldowns` has the
form `f"{mode}->{target}"` with a configured (concrete) source mode and
never begins with `'*'`; the key `f"*->{to}"` a wildcard rule is checked
under is therefore never present, so `_can_transition` never refuses a
wildcard rule on cooldown grounds — its verdict is exactly the
unknown-target check. -/
theorem c10_wildcard_never_cooldown (config : ModeSystemConfig) (m : ModeManager)
    (hnostar : ∀ kv ∈ config.modes, startsWithStar kv.1 = false)
    (hreach : Reachable config m) (rule : TransitionRule) (now : ℚ)
    (hwild : rule.from_mode = "*") :
    (∀ kv ∈ m.transition_cooldowns,
        (∃ f t, kv.1 = transitionKey f t ∧ (config.modes.lookup f).isSome = true)
          ∧ startsWithStar kv.1 = false)
    ∧ m.transition_cooldowns.lookup (transitionKey "*" rule.to_mode) = none
    ∧ can_transition m now rule = (m.config.modes.lookup rule.to_mode).isSome := by
  obtain ⟨hc, hcur, hcool⟩ := reachable_inv hreach
  have hkeys : ∀ kv ∈ m.transition_cooldowns, startsWithStar kv.1 = false := by
    intro kv hkv
    obtain ⟨f, t, hkey, hf⟩ := hcool kv hkv
    obtain ⟨v, hv⟩ := lookup_isSome_mem hf
    have hfstar : startsWithStar f = false := hnostar (f, v) hv
    cases hb : startsWithStar kv.1
    · rfl
    · exfalso
      rw [hkey] at hb
      rw [startsWithStar_transitionKey hb] at hfstar
      exact Bool.noConfusion hfstar
  have hstar_q : startsWithStar (transitionKey "*" rule.to_mode) = true := by
    rw [startsWithStar, transitionKey_data]
    rfl
  have hnone : m.transition_cooldowns.lookup (transitionKey "*" rule.to_mode) = none :=
    lookup_none_of_no_star hkeys hstar_q
  refine ⟨fun kv hkv => ⟨hcool kv hkv, hkeys kv hkv⟩, hnone, ?_⟩
  simp only [can_transition, hwild]
  rw [hnone]

/-- Witness for C10: on the sample manager, freshly initialised and hence
reachable, the wildcard rule is admitted — its cooldown key is absent and
`_can_transition` reduces to the target-existence check. -/
theorem c10_witness :
    can_transition sampleMgr 5 sampleWildRule = true
    ∧ sampleMgr.transition_cooldowns.lookup (transitionKey "*" "b") = none := by
  have h := c10_wildcard_never_cooldown sampleCfg sampleMgr (by decide)
    (Reachable.init 0 none sampleMgr (by decide)) sampleWildRule 5 rfl
  refine ⟨?_, h.2.1⟩
  rw [h.2.2]
  decide

end OM1
